import Mathlib

/-!
Verification of the Helios SQL conversion core.

Shallow embedding, over `List Char`, of the repository's statement splitter
(`splitter.py`), hint stripper and function-rewrite library (`rules.py`),
MERGE → INSERT OVERWRITE transformer (`rules.py`), the orchestrator's MERGE
branch (`convert.py`), and the schema resolution chain (`schema_resolver.py`),
together with theorems settling the specification claims.

Python strings are modelled as `List Char` (ASCII fragment); `str.find`
returning `-1` is modelled as `Option Nat`; fallible parsing returns `Option`.
-/

set_option maxRecDepth 8192
set_option maxHeartbeats 1600000

/-! ### Python string primitives -/

/-- Python `str.isspace` characters relevant to `strip`/`split` (ASCII). -/
def isPySpace (c : Char) : Bool :=
  c = ' ' || c = '\t' || c = '\n' || c = '\r' || c = '\x0b' || c = '\x0c'

/-- Python `str.lstrip()`. -/
def pyLstrip (l : List Char) : List Char := l.dropWhile isPySpace

/-- Python `str.rstrip()`. -/
def pyRstrip (l : List Char) : List Char := (l.reverse.dropWhile isPySpace).reverse

/-- Python `str.strip()`. -/
def pyStrip (l : List Char) : List Char := pyRstrip (pyLstrip l)

/-- Python `str.rstrip("\n")` (used by the orchestrator on emitted text). -/
def pyRstripNl (l : List Char) : List Char :=
  (l.reverse.dropWhile (fun c => c = '\n')).reverse

/-- ASCII uppercasing of one character, as Python `str.upper` acts on ASCII. -/
def upChar (c : Char) : Char :=
  if 'a' ≤ c && c ≤ 'z' then Char.ofNat (c.toNat - 32) else c

/-- Python `str.upper()` on the ASCII fragment. -/
def upChars (l : List Char) : List Char := l.map upChar

/-- Substring occurrence test helper: does `pat` occur in `hay` (at any
position)?  Mirrors Python `pat in hay`. -/
def hasSub (hay pat : List Char) : Bool :=
  pat.isPrefixOf hay ||
    match hay with
    | [] => false
    | _ :: rest => hasSub rest pat

/-- Python `hay.find(pat)` restricted to searching from position 0:
index of the first occurrence, `none` for Python's `-1`. -/
def findSubIdx (hay pat : List Char) : Option Nat :=
  if pat.isPrefixOf hay then some 0
  else
    match hay with
    | [] => none
    | _ :: rest => (findSubIdx rest pat).map (· + 1)

/-- Python `hay.find(pat, start)`. -/
def findSubFrom (hay pat : List Char) (start : Nat) : Option Nat :=
  (findSubIdx (hay.drop start) pat).map (· + start)

/-- Python slice `l[a:b]` for `0 ≤ a ≤ b` (clamping semantics of `take`/`drop`
match Python for the in-range indices produced by `find`). -/
def pySlice (l : List Char) (a b : Nat) : List Char := (l.drop a).take (b - a)

/-- Loop of `pySplitWs` below; the fuel only discharges termination (each
step consumes at least one character, so the input length suffices). -/
def pySplitWsGo : Nat → List Char → List (List Char)
  | _, [] => []
  | 0, _ => []
  | fuel + 1, c :: rest =>
    if isPySpace c then pySplitWsGo fuel rest
    else (c :: rest.takeWhile (fun x => !isPySpace x)) ::
      pySplitWsGo fuel (rest.dropWhile (fun x => !isPySpace x))

/-- Python `str.split()` (split on whitespace runs, no empty tokens). -/
def pySplitWs (l : List Char) : List (List Char) := pySplitWsGo l.length l

/-- Python `str.split(None, 1)`: at most one split on a whitespace run; the
remainder keeps its trailing whitespace, and a whitespace-only string yields
`[]`. -/
def pySplitWs1 (l : List Char) : List (List Char) :=
  match pyLstrip l with
  | [] => []
  | c :: rest =>
    let tok := c :: rest.takeWhile (fun x => !isPySpace x)
    let rem := pyLstrip (rest.dropWhile (fun x => !isPySpace x))
    if rem = [] then [tok] else [tok, rem]

/-- Python `s.split(sep, 1)` guarded by `sep in s`: `none` when the separator
character does not occur. -/
def splitOnceChar (sep : Char) : List Char → Option (List Char × List Char)
  | [] => none
  | c :: rest =>
    if c = sep then some ([], rest)
    else (splitOnceChar sep rest).map (fun p => (c :: p.1, p.2))

/-- Loop of `replaceAll` below; the fuel only discharges termination (each
step consumes at least one character, so the input length suffices). -/
def replaceAllGo (pat rep : List Char) : Nat → List Char → List Char
  | _, [] => []
  | 0, s => s
  | fuel + 1, c :: rest =>
    if pat ≠ [] && pat.isPrefixOf (c :: rest) then
      rep ++ replaceAllGo pat rep fuel ((c :: rest).drop pat.length)
    else c :: replaceAllGo pat rep fuel rest

/-- Python `str.replace(pat, rep)` for a non-empty pattern (left-to-right,
non-overlapping). -/
def replaceAll (s pat rep : List Char) : List Char := replaceAllGo pat rep s.length s

/-- Python `", ".join`-style joining. -/
def joinWith (sep : List Char) : List (List Char) → List Char
  | [] => []
  | [x] => x
  | x :: rest => x ++ sep ++ joinWith sep rest

/-- Ordered association-list model of a Python `dict` built by item
assignment: assignment overwrites in place, new keys are appended. -/
def dictInsert (m : List (List Char × List Char)) (k v : List Char) :
    List (List Char × List Char) :=
  match m with
  | [] => [(k, v)]
  | (k', v') :: rest => if k' = k then (k, v) :: rest else (k', v') :: dictInsert rest k v

/-- Python `dict.get(k)`. -/
def dictGet (m : List (List Char × List Char)) (k : List Char) : Option (List Char) :=
  match m with
  | [] => none
  | (k', v') :: rest => if k' = k then some v' else dictGet rest k

/-! ### Statement splitter (`splitter.py`, `split_sql_statements`)

The Python scanner consumes a whole `-- …` line in one step of its index
loop; here the same automaton is run one character at a time with an
explicit in-comment flag, which consumes exactly the same characters. -/

/-- Close the current statement buffer: trim it and append it to the output
when non-empty (`splitter.py` lines 36-39 and 45-47). -/
def pushStmt (buf : List Char) (acc : List (List Char)) : List (List Char) :=
  if pyStrip buf = [] then acc else acc ++ [pyStrip buf]

/-- The splitter automaton (`splitter.py` lines 13-47).  State: remaining
input, `in_single` quote flag, in-line-comment flag, current buffer,
statements so far. -/
def splitGo : List Char → Bool → Bool → List Char → List (List Char) → List (List Char)
  | [], _q, _cm, buf, acc => pushStmt buf acc
  | c :: rest, q, cm, buf, acc =>
    if cm then splitGo rest q (decide (c ≠ '\n')) (buf ++ [c]) acc
    else if c = '-' && !q && rest.head? = some '-' then
      splitGo rest q true (buf ++ [c]) acc
    else if c = '\'' then splitGo rest (!q) cm (buf ++ [c]) acc
    else if c = ';' && !q then splitGo rest q cm [] (pushStmt buf acc)
    else splitGo rest q cm (buf ++ [c]) acc

/-- `split_sql_statements` on character lists. -/
def splitSqlChars (l : List Char) : List (List Char) := splitGo l false false [] []

/-- `split_sql_statements` (`splitter.py`). -/
def split_sql_statements (s : String) : List String :=
  (splitSqlChars s.data).map fun l => String.mk l

/-- Joining statements back with `";"`, the re-splitting side of the spec's
round-trip property, at the character level. -/
def joinSemi : List (List Char) → List Char
  | [] => []
  | [s] => s
  | s :: rest => s ++ ';' :: joinSemi rest

/-- Shadow of the splitter automaton over a single statement: returns the
final (quote, comment) state, or `none` as soon as a top-level `;` would have
closed the statement.  Used to state when a statement re-scans cleanly. -/
def scanStmt : List Char → Bool → Bool → Option (Bool × Bool)
  | [], q, cm => some (q, cm)
  | c :: rest, q, cm =>
    if cm then scanStmt rest q (decide (c ≠ '\n'))
    else if c = '-' && !q && rest.head? = some '-' then scanStmt rest q true
    else if c = '\'' then scanStmt rest (!q) cm
    else if c = ';' && !q then none
    else scanStmt rest q cm

/-- A statement that round-trips through `join`/re-split: it is its own trim,
non-empty, and re-scanning it meets no top-level `;`, ends outside a quoted
literal and not inside an unterminated line comment. -/
def GoodStmt (s : List Char) : Prop :=
  scanStmt s false false = some (false, false) ∧ pyStrip s = s ∧ s ≠ []

instance : DecidablePred GoodStmt := fun s => by
  unfold GoodStmt; infer_instance

/-! ### Hint stripper (`rules.py`, `drop_hints_and_normalize`) -/

/-- `drop_hints_and_normalize` on character lists (`rules.py` lines 37-48),
run one character at a time with an explicit inside-hint flag: in normal mode
an exact `/*+` enters hint mode (dropping those three characters); in hint
mode everything through the first `*/` is dropped, and if no `*/` follows the
rest of the text is dropped — exactly the Python `find`-and-skip loop. -/
def dropHintsGo : List Char → Bool → List Char
  | [], _inHint => []
  | '*' :: '/' :: rest2, true => dropHintsGo rest2 false
  | _ :: rest, true => dropHintsGo rest true
  | '/' :: '*' :: '+' :: rest, false => dropHintsGo rest true
  | c :: rest, false => c :: dropHintsGo rest false

/-- `drop_hints_and_normalize` on character lists. -/
def dropHintsChars (l : List Char) : List Char := dropHintsGo l false

/-- `drop_hints_and_normalize` (`rules.py`). -/
def drop_hints_and_normalize (s : String) : String := String.mk (dropHintsChars s.data)

/-! ### Function-rewrite scanner (`rules.py` lines 54-147) -/

/-- Argument splitter loop of `_split_args` (`rules.py` lines 54-88):
split on commas at paren depth 0, quote-aware with `''` escape; the trailing
segment is appended only when non-empty after trimming. -/
def splitArgsGo : List Char → Nat → Bool → List Char → List (List Char) → List (List Char)
  | [], _depth, _insg, buf, acc =>
    if pyStrip buf = [] then acc else acc ++ [pyStrip buf]
  | '\'' :: '\'' :: rest2, depth, true, buf, acc =>
    splitArgsGo rest2 depth true (buf ++ ['\'', '\'']) acc
  | '\'' :: rest, depth, insg, buf, acc => splitArgsGo rest depth (!insg) (buf ++ ['\'']) acc
  | c :: rest, depth, insg, buf, acc =>
    if insg then splitArgsGo rest depth insg (buf ++ [c]) acc
    else if c = '(' then splitArgsGo rest (depth + 1) insg (buf ++ [c]) acc
    else if c = ')' then splitArgsGo rest (depth - 1) insg (buf ++ [c]) acc
    else if c = ',' && depth = 0 then splitArgsGo rest depth insg [] (acc ++ [pyStrip buf])
    else splitArgsGo rest depth insg (buf ++ [c]) acc

/-- `_split_args` (`rules.py`).  Python's guarded `depth -= 1` for `depth > 0`
coincides with truncated `Nat` subtraction. -/
def _split_args (l : List Char) : List (List Char) := splitArgsGo l 0 false [] []

/-- Matching-paren probe of `_find_func_ranges` (`rules.py` lines 107-131):
scan from the opening paren of the invocation, `depth` starting at 0, and
stop at a `)` seen while `depth = 0` — the depth test happens BEFORE the
decrement, so the opening paren itself pushes depth to 1 and only a close
paren in excess of the balanced ones is ever reported. -/
def fscanClose : List Char → Int → Bool → Nat → Option Nat
  | [], _depth, _insg, _i => none
  | '\'' :: '\'' :: rest2, depth, true, i => fscanClose rest2 depth true (i + 2)
  | '\'' :: rest, depth, insg, i => fscanClose rest depth (!insg) (i + 1)
  | c :: rest, depth, insg, i =>
    if insg then fscanClose rest depth insg (i + 1)
    else if c = '(' then fscanClose rest (depth + 1) insg (i + 1)
    else if c = ')' then
      if depth = 0 then some i else fscanClose rest (depth - 1) insg (i + 1)
    else fscanClose rest depth insg (i + 1)

/-- Loop of `_find_func_ranges` (`rules.py` lines 98-136).  The fuel only
discharges termination: each iteration resumes after the reported close
paren, so `text.length + 1` iterations always suffice. -/
def findFuncRangesGo (text fnameUp : List Char) : Nat → Nat → List (Nat × Nat × Nat × Nat)
  | _idx, 0 => []
  | idx, fuel + 1 =>
    match findSubFrom (upChars text) (fnameUp ++ ['(']) idx with
    | none => []
    | some n =>
      let lpar := n + fnameUp.length
      match fscanClose (text.drop lpar) 0 false lpar with
      | none => []
      | some rpar =>
        (n, n + fnameUp.length, lpar, rpar) :: findFuncRangesGo text fnameUp (rpar + 1) fuel

/-- `_find_func_ranges` (`rules.py`). -/
def _find_func_ranges (text fnameUp : List Char) : List (Nat × Nat × Nat × Nat) :=
  findFuncRangesGo text fnameUp 0 (text.length + 1)

/-- Loop of `_replace_ranges` over `zip(ranges, repls)` with the running
`last` cursor (`rules.py` lines 139-147). -/
def replaceRangesGo (text : List Char) :
    List ((Nat × Nat × Nat × Nat) × List Char) → Nat → List Char
  | [], last => text.drop last
  | ((ns, _nameEnd, _lp, rp), rep) :: more, last =>
    pySlice text last ns ++ rep ++ replaceRangesGo text more (rp + 1)

/-- `_replace_ranges` (`rules.py`). -/
def _replace_ranges (text : List Char) (ranges : List (Nat × Nat × Nat × Nat))
    (repls : List (List Char)) : List Char :=
  replaceRangesGo text (ranges.zip repls) 0

/-! ### Date-format mapping and per-function transforms (`rules.py` lines 150-358) -/

/-- Token replacement table of `_map_oracle_format_to_spark`
(`rules.py` lines 154-163), in source order. -/
def oracleSparkMapping : List (List Char × List Char) :=
  [("YYYY".data, "yyyy".data), ("YY".data, "yy".data), ("HH24".data, "HH".data),
   ("HH12".data, "hh".data), ("MI".data, "mm".data), ("SS".data, "ss".data),
   ("MM".data, "MM".data), ("DD".data, "dd".data)]

def isUpperAZ (c : Char) : Bool := 'A' ≤ c && c ≤ 'Z'

/-- Loop of `letterRuns` below; the fuel only discharges termination. -/
def letterRunsGo : Nat → List Char → List (List Char)
  | _, [] => []
  | 0, _ => []
  | fuel + 1, c :: rest =>
    if isUpperAZ c then
      (c :: rest.takeWhile isUpperAZ) :: letterRunsGo fuel (rest.dropWhile isUpperAZ)
    else letterRunsGo fuel rest

/-- Python `re.findall(r"[A-Z]+", s)`: maximal runs of capital letters. -/
def letterRuns (l : List Char) : List (List Char) := letterRunsGo l.length l

/-- `_map_oracle_format_to_spark` (`rules.py` lines 150-176): validate that
every alphabetic run of the uppercased format is a key of the table, then
apply the replacements sequentially to the original format string. -/
def _map_oracle_format_to_spark (fmt : List Char) : Option (List Char) :=
  let toks := letterRuns (upChars fmt)
  if toks.all (fun t => oracleSparkMapping.any (fun m => m.1 = t)) then
    some (oracleSparkMapping.foldl (fun acc m => replaceAll acc m.1 m.2) fmt)
  else none

/-- `_transform_nvl` (`rules.py` lines 179-191). -/
def _transform_nvl (text : List Char) : List Char :=
  let ranges := _find_func_ranges text "NVL".data
  if ranges = [] then text
  else
    let repls := ranges.map fun r => match r with
      | (ns, _nameEnd, lp, rp) =>
        let args := _split_args (pySlice text (lp + 1) rp)
        if 2 ≤ args.length then "COALESCE(".data ++ joinWith ", ".data args ++ [')']
        else pySlice text ns (rp + 1)
    _replace_ranges text ranges repls

/-- WHEN/THEN chain of `_transform_decode` (`rules.py` lines 210-214); the
input pair list always has even length at the call site. -/
def decodeWhens (expr : List Char) : List (List Char) → List (List Char)
  | v :: r :: rest =>
    ("WHEN ".data ++ expr ++ " = ".data ++ v ++ " THEN ".data ++ r) :: decodeWhens expr rest
  | _ => []

/-- `_transform_decode` (`rules.py` lines 194-219). -/
def _transform_decode (text : List Char) : List Char :=
  let ranges := _find_func_ranges text "DECODE".data
  if ranges = [] then text
  else
    let repls := ranges.map fun r => match r with
      | (ns, _nameEnd, lp, rp) =>
        let args := _split_args (pySlice text (lp + 1) rp)
        if 3 ≤ args.length then
          match args with
          | expr :: pairs0 =>
            let dflt := if pairs0.length % 2 = 1 then pairs0.getLastD [] else "NULL".data
            let pairs := if pairs0.length % 2 = 1 then pairs0.dropLast else pairs0
            "CASE ".data ++ joinWith " ".data (decodeWhens expr pairs) ++
              " ELSE ".data ++ dflt ++ " END".data
          | [] => pySlice text ns (rp + 1)
        else pySlice text ns (rp + 1)
    _replace_ranges text ranges repls

/-- `_transform_to_char` (`rules.py` lines 222-240). -/
def _transform_to_char (text : List Char) : List Char :=
  let ranges := _find_func_ranges text "TO_CHAR".data
  if ranges = [] then text
  else
    let repls := ranges.map fun r => match r with
      | (ns, _nameEnd, lp, rp) =>
        let args := _split_args (pySlice text (lp + 1) rp)
        match args with
        | [expr, fmt] =>
          let fmtS := pyStrip fmt
          if fmtS.head? = some '\'' && fmtS.getLast? = some '\'' && 2 ≤ fmtS.length then
            match _map_oracle_format_to_spark (fmtS.drop 1).dropLast with
            | some mapped => "date_format(".data ++ expr ++ ", '".data ++ mapped ++ "')".data
            | none => pySlice text ns (rp + 1)
          else pySlice text ns (rp + 1)
        | _ => pySlice text ns (rp + 1)
    _replace_ranges text ranges repls

/-- `_transform_to_date` (`rules.py` lines 243-261). -/
def _transform_to_date (text : List Char) : List Char :=
  let ranges := _find_func_ranges text "TO_DATE".data
  if ranges = [] then text
  else
    let repls := ranges.map fun r => match r with
      | (ns, _nameEnd, lp, rp) =>
        let args := _split_args (pySlice text (lp + 1) rp)
        match args with
        | [expr, fmt] =>
          let fmtS := pyStrip fmt
          if fmtS.head? = some '\'' && fmtS.getLast? = some '\'' && 2 ≤ fmtS.length then
            match _map_oracle_format_to_spark (fmtS.drop 1).dropLast with
            | some mapped => "to_date(".data ++ expr ++ ", '".data ++ mapped ++ "')".data
            | none => pySlice text ns (rp + 1)
          else pySlice text ns (rp + 1)
        | _ => pySlice text ns (rp + 1)
    _replace_ranges text ranges repls

/-- `_transform_trunc_date` (`rules.py` lines 264-278). -/
def _transform_trunc_date (text : List Char) : List Char :=
  let ranges := _find_func_ranges text "TRUNC".data
  if ranges = [] then text
  else
    let repls := ranges.map fun r => match r with
      | (ns, _nameEnd, lp, rp) =>
        let args := _split_args (pySlice text (lp + 1) rp)
        match args with
        | [a] => "date_trunc('DAY', ".data ++ a ++ [')']
        | _ => pySlice text ns (rp + 1)
    _replace_ranges text ranges repls

/-- Loop of `_transform_to_date_minus_n` (`rules.py` lines 281-342), with the
output cursor `i` made explicit.  The fuel only discharges termination: the
cursor strictly advances each iteration. -/
def toDateMinusGo (t : List Char) : Nat → Nat → List Char
  | _i, 0 => []
  | i, fuel + 1 =>
    match findSubFrom (upChars t) "TO_DATE(".data i with
    | none => t.drop i
    | some n =>
      let pre := pySlice t i n
      let lpar := n + 7
      match fscanClose (t.drop lpar) 0 false lpar with
      | none => pre ++ t.drop n
      | some rpar =>
        let k1 := rpar + 1 + ((t.drop (rpar + 1)).takeWhile isPySpace).length
        if (t.drop k1).head? = some '-' then
          let k3 := k1 + 1 + ((t.drop (k1 + 1)).takeWhile isPySpace).length
          let digits := (t.drop k3).takeWhile (fun c => c.isDigit)
          if digits ≠ [] then
            pre ++ "date_sub(TO_DATE(".data ++ pySlice t (lpar + 1) rpar ++ "), ".data ++
              digits ++ [')'] ++ toDateMinusGo t (k3 + digits.length) fuel
          else pre ++ pySlice t n (rpar + 1) ++ toDateMinusGo t (rpar + 1) fuel
        else pre ++ pySlice t n (rpar + 1) ++ toDateMinusGo t (rpar + 1) fuel

/-- `_transform_to_date_minus_n` (`rules.py`). -/
def _transform_to_date_minus_n (t : List Char) : List Char := toDateMinusGo t 0 (t.length + 1)

/-- `minimal_safe_rewrites` (`rules.py` lines 345-358): the fixed rule order. -/
def minimal_safe_rewrites (stmt : List Char) : List Char :=
  _transform_trunc_date
    (_transform_to_date
      (_transform_to_char
        (_transform_decode
          (_transform_nvl
            (_transform_to_date_minus_n stmt)))))

/-! ### MERGE structural transformer (`rules.py` lines 363-625) -/

/-- Matching-paren scan used by the MERGE parser (`rules.py` lines 393-415,
439-458, 504-525, 539-561): decrement BEFORE the zero test, scanning from the
opening paren, so this one really finds the matching close paren. -/
def mscanClose : List Char → Int → Bool → Nat → Option Nat
  | [], _depth, _insg, _i => none
  | '\'' :: '\'' :: rest2, depth, true, i => mscanClose rest2 depth true (i + 2)
  | '\'' :: rest, depth, insg, i => mscanClose rest depth (!insg) (i + 1)
  | c :: rest, depth, insg, i =>
    if insg then mscanClose rest depth insg (i + 1)
    else if c = '(' then mscanClose rest (depth + 1) insg (i + 1)
    else if c = ')' then
      if depth - 1 = 0 then some i else mscanClose rest (depth - 1) insg (i + 1)
    else mscanClose rest depth insg (i + 1)

/-- `_strip_alias` (`rules.py` lines 363-367). -/
def _strip_alias (col : List Char) : List Char :=
  let c := pyStrip col
  match splitOnceChar '.' c with
  | some p => p.2
  | none => c

/-- The components assembled by `_parse_merge` before its final two lines:
`on_raw` is the ON condition before the `(+)` markers are removed
(`rules.py` line 565, `on_condition_raw`). -/
structure MergePre where
  target_table : List Char
  target_alias : List Char
  source_subquery : List Char
  source_alias : List Char
  on_raw : List Char
  update_map : List (List Char × List Char)
  insert_cols : List (List Char)
  insert_vals : List (List Char)
deriving DecidableEq, Repr

/-- The dictionary returned by `_parse_merge` (`rules.py` lines 568-578). -/
structure MergeComponents where
  target_table : List Char
  target_alias : List Char
  source_subquery : List Char
  source_alias : List Char
  on_condition : List Char
  left_join : Bool
  update_map : List (List Char × List Char)
  insert_cols : List (List Char)
  insert_vals : List (List Char)
deriving DecidableEq, Repr

/-- `_parse_merge` lines 371-386: `MERGE INTO` prefix, ` USING ` keyword,
target table and alias. Returns `(target_table, target_alias, after_using)`. -/
def parseMergeHead (stmt : List Char) : Option (List Char × List Char × List Char) :=
  let up := upChars stmt
  if !("MERGE INTO ".data.isPrefixOf up) then none
  else
    match findSubFrom up " USING ".data 0 with
    | none => none
    | some uIdx =>
      let into_part := pySlice stmt 11 uIdx
      match pySplitWs (pyStrip into_part) with
      | [] => none
      | t0 :: restToks =>
        let tt := pyStrip t0
        let ta := match restToks with
          | t1 :: _ => pyStrip t1
          | [] => "A".data
        some (tt, ta, stmt.drop (uIdx + 7))

/-- `_parse_merge` lines 387-425: source subquery in balanced parens followed
by the source alias. Returns `(source_subquery_raw, source_alias, rest)`. -/
def parseMergeSource (after_using : List Char) :
    Option (List Char × List Char × List Char) :=
  if !("(".data.isPrefixOf (pyLstrip after_using)) then none
  else
    match findSubFrom after_using "(".data 0 with
    | none => none
    | some off =>
      let base := after_using.drop off
      match mscanClose base 0 false 0 with
      | none => none
      | some rpar =>
        let srcq := pySlice base 1 rpar
        let rest_after := pyLstrip (base.drop (rpar + 1))
        match pySplitWs1 rest_after with
        | [] => none
        | [p0] => some (srcq, pyStrip p0, [])
        | p0 :: p1 :: _ => some (srcq, pyStrip p0, p1)

/-- `_parse_merge` lines 426-462: the ` ON ` keyword and the parenthesized,
trimmed ON condition. Returns `(on_condition_raw, rest2)`. -/
def parseMergeOn (rest : List Char) : Option (List Char × List Char) :=
  match findSubFrom (upChars rest) " ON ".data 0 with
  | none => none
  | some onIdx =>
    let after_on := pyLstrip (rest.drop (onIdx + 4))
    if !("(".data.isPrefixOf after_on) then none
    else
      match mscanClose after_on 0 false 0 with
      | none => none
      | some rpar2 => some (pyStrip (pySlice after_on 1 rpar2), after_on.drop (rpar2 + 1))

/-- `_parse_merge` lines 479-489: the UPDATE SET assignment pairs. -/
def buildUpdateMap (pairs : List (List Char)) : List (List Char × List Char) :=
  pairs.foldl
    (fun m p =>
      if pyStrip p = [] then m
      else
        match splitOnceChar '=' p with
        | none => m
        | some lr => dictInsert m (pyStrip (_strip_alias lr.1)) (pyStrip lr.2))
    []

/-- `_parse_merge` lines 463-489: `WHEN MATCHED THEN`, `UPDATE SET`, the
assignment map, and the tail from `WHEN NOT MATCHED` when present. -/
def parseMergeUpdates (rest2 : List Char) :
    Option (List (List Char × List Char) × Option (List Char)) :=
  match findSubFrom (upChars rest2) "WHEN MATCHED THEN".data 0 with
  | none => none
  | some wm =>
    let after_wm := rest2.drop (wm + 17)
    match findSubFrom (upChars after_wm) "UPDATE SET".data 0 with
    | none => none
    | some us =>
      let after_us := after_wm.drop (us + 10)
      let wnm? := findSubFrom (upChars after_us) "WHEN NOT MATCHED".data 0
      let blob := match wnm? with
        | none => after_us
        | some w => after_us.take w
      some (buildUpdateMap (_split_args blob), wnm?.map fun w => after_us.drop w)

/-- `_parse_merge` lines 490-563: `INSERT (cols) VALUES (vals)`.  When the
paren scan finds no close paren (`rpar3`/`rpar4` stay `-1`), the Python
slices `[1:-1]` and `[rpar+1:] = [0:]`, which drop the final character and
keep the whole region respectively — reproduced literally here. -/
def parseMergeInsert (wnmTail : Option (List Char)) :
    List (List Char) × List (List Char) :=
  match wnmTail with
  | none => ([], [])
  | some after_updates_up =>
    match findSubFrom (upChars after_updates_up) "INSERT".data 0 with
    | none => ([], [])
    | some ins =>
      let after_ins := pyLstrip (after_updates_up.drop (ins + 6))
      let colsAndRest : List (List Char) × List Char :=
        if "(".data.isPrefixOf after_ins then
          match mscanClose after_ins 0 false 0 with
          | some rp3 =>
            ((_split_args (pySlice after_ins 1 rp3)).map fun c => pyStrip (_strip_alias c),
              after_ins.drop (rp3 + 1))
          | none =>
            ((_split_args (after_ins.drop 1).dropLast).map fun c => pyStrip (_strip_alias c),
              after_ins)
        else ([], after_ins)
      let vals : List (List Char) :=
        match findSubFrom (upChars colsAndRest.2) "VALUES".data 0 with
        | none => []
        | some v =>
          let after_vals := pyLstrip (colsAndRest.2.drop (v + 6))
          if "(".data.isPrefixOf after_vals then
            match mscanClose after_vals 0 false 0 with
            | some rp4 => (_split_args (pySlice after_vals 1 rp4)).map pyStrip
            | none => (_split_args (after_vals.drop 1).dropLast).map pyStrip
          else []
      (colsAndRest.1, vals)

/-- `_parse_merge` up to line 563, before the outer-join detection. -/
def parseMergePre (stmt : List Char) : Option MergePre := do
  let (tt, ta, after_using) ← parseMergeHead stmt
  let (srcq, sa, rest) ← parseMergeSource after_using
  let (onRaw, rest2) ← parseMergeOn rest
  let (umap, wnmTail) ← parseMergeUpdates rest2
  let (cols, vals) := parseMergeInsert wnmTail
  pure ⟨tt, ta, srcq, sa, onRaw, umap, cols, vals⟩

/-- `_parse_merge` lines 564-578: LEFT JOIN detection (source-alias prefix
and `(+)` marker both occurring anywhere in the raw ON condition), marker
removal, and final trims. -/
def finalizeMerge (p : MergePre) : MergeComponents :=
  { target_table := pyStrip p.target_table
    target_alias := p.target_alias
    source_subquery := pyStrip p.source_subquery
    source_alias := p.source_alias
    on_condition := replaceAll p.on_raw "(+)".data []
    left_join := hasSub p.on_raw (p.source_alias ++ ['.']) && hasSub p.on_raw "(+)".data
    update_map := p.update_map
    insert_cols := p.insert_cols
    insert_vals := p.insert_vals }

/-- `_parse_merge` (`rules.py` lines 370-578). -/
def _parse_merge (stmt : List Char) : Option MergeComponents :=
  (parseMergePre stmt).map finalizeMerge

/-- Join keyword of the updated branch (`rules.py` line 603). -/
def mergeJoinKw (comp : MergeComponents) : List Char :=
  if comp.left_join then "LEFT JOIN".data else "JOIN".data

/-- SQL synthesis of `transform_merge_to_insert_overwrite`
(`rules.py` lines 592-625). -/
def buildMergeSql (comp : MergeComponents) : List Char :=
  let tgt := comp.target_table
  let ta := comp.target_alias
  let srcq := comp.source_subquery
  let sa := comp.source_alias
  let onc := comp.on_condition
  let updated_exprs := comp.insert_cols.map fun c =>
    (match dictGet comp.update_map c with
      | some e => e
      | none => ta ++ ['.'] ++ c) ++ " AS ".data ++ c
  let updated_sql :=
    "SELECT ".data ++ joinWith ", ".data updated_exprs ++ " FROM ".data ++ tgt ++
      [' '] ++ ta ++ [' '] ++ mergeJoinKw comp ++ " (\n".data ++ srcq ++ "\n) ".data ++
      sa ++ " ON (".data ++ onc ++ [')']
  let inserted_pairs := (comp.insert_cols.zip comp.insert_vals).map fun cv =>
    cv.2 ++ " AS ".data ++ cv.1
  let inserted_sql :=
    "SELECT ".data ++ joinWith ", ".data inserted_pairs ++ " FROM (\n".data ++ srcq ++
      "\n) ".data ++ sa ++ " LEFT ANTI JOIN ".data ++ tgt ++ [' '] ++ ta ++
      " ON (".data ++ onc ++ [')']
  let preserved_exprs := comp.insert_cols.map fun c => ta ++ ['.'] ++ c ++ " AS ".data ++ c
  let preserved_sql :=
    "SELECT ".data ++ joinWith ", ".data preserved_exprs ++ " FROM ".data ++ tgt ++
      [' '] ++ ta ++ " LEFT ANTI JOIN (\n".data ++ srcq ++ "\n) ".data ++ sa ++
      " ON (".data ++ onc ++ [')']
  "INSERT OVERWRITE TABLE ".data ++ tgt ++ ['\n'] ++ "SELECT * FROM (\n".data ++
    updated_sql ++ "\nUNION ALL\n".data ++ inserted_sql ++ "\nUNION ALL\n".data ++
    preserved_sql ++ "\n) u".data

/-- `transform_merge_to_insert_overwrite` (`rules.py` lines 581-625). -/
def transform_merge_to_insert_overwrite (stmt : List Char) : Option (List Char) :=
  match _parse_merge stmt with
  | none => none
  | some comp =>
    if comp.insert_cols = [] || comp.insert_vals = [] then none
    else if comp.insert_cols.length ≠ comp.insert_vals.length then none
    else some (buildMergeSql comp)

/-! ### MERGE skeleton fallback and the orchestrator's MERGE branch
(`rules.py` lines 630-649, `convert.py` lines 52-75) -/

/-- The fixed commented skeleton emitted by `try_merge_to_insert_overwrite`
(`rules.py` lines 634-649). -/
def mergeSkeletonText : String :=
  "-- HELIOS_NOTE: Converted MERGE into INSERT OVERWRITE skeleton for Hive-Spark\n" ++
  "-- Review required: ensure target columns and key semantics are preserved.\n" ++
  "-- Example pattern:\n" ++
  "-- INSERT OVERWRITE TABLE <target>\n" ++
  "-- SELECT * FROM (\n" ++
  "--   /* when matched: compose updated rows */\n" ++
  "--   SELECT <updated_columns...> FROM <source> s JOIN <target> t ON <keys>\n" ++
  "--   UNION ALL\n" ++
  "--   /* when not matched: insert new rows */\n" ++
  "--   SELECT <insert_columns...> FROM <source> s LEFT ANTI JOIN <target> t ON <keys>\n" ++
  "--   UNION ALL\n" ++
  "--   /* preserved rows not updated */\n" ++
  "--   SELECT <existing_columns...> FROM <target> t LEFT ANTI JOIN <source> s ON <keys>\n" ++
  "-- ) u;\n"

/-- `try_merge_to_insert_overwrite` (`rules.py` lines 630-649): guard on the
STRIPPED upper-cased statement. -/
def try_merge_to_insert_overwrite (stmt : List Char) : Option (List Char) :=
  if "MERGE ".data.isPrefixOf (upChars (pyStrip stmt)) then some mergeSkeletonText.data
  else none

/-- `annotate_failure` (`rules.py` lines 10-12). -/
def annotate_failure (reason chunk_id : String) : String :=
  "-- HELIOS_FAILURE: " ++ reason ++ " | chunk_id=" ++ chunk_id

/-- Guard of the orchestrator's MERGE branch (`convert.py` lines 55-58):
the LSTRIPPED upper-cased statement starts with `MERGE `. -/
def convertMergeGuard (clean : List Char) : Bool :=
  "MERGE ".data.isPrefixOf (upChars (pyLstrip clean))

/-- Body of the orchestrator's MERGE branch (`convert.py` lines 58-75).
`llm` models the external translation capability: `none` when it is
unavailable or raises.  Python's truthiness tests on the returned strings
are kept. -/
def convertMergeBranch (clean : List Char) (use_llm : Bool) (llm : Option (List Char))
    (chunk_id : String) : List Char :=
  let step3 : List Char :=
    if use_llm then
      match llm with
      | some conv => pyRstripNl conv
      | none => (annotate_failure "MERGE_REWRITE_NEEDED" chunk_id).data
    else (annotate_failure "MERGE_REWRITE_NEEDED" chunk_id).data
  let step2 : List Char :=
    match try_merge_to_insert_overwrite clean with
    | some sk => if sk ≠ [] then pyRstripNl sk else step3
    | none => step3
  match transform_merge_to_insert_overwrite clean with
  | some full => if full ≠ [] then pyRstripNl full else step2
  | none => step2

/-! ### Schema resolution chain (`schema_resolver.py`) -/

/-- `_normalize_table_name` (`schema_resolver.py` lines 17-18). -/
def _normalize_table_name (t : String) : String := String.mk (pyStrip t.data)

/-- Association lookup modelling `dict.get` on the JSON cache. -/
def cacheLookup (cache : List (String × List String)) (k : String) : Option (List String) :=
  match cache with
  | [] => none
  | (k', v) :: rest => if k' = k then some v else cacheLookup rest k

/-- Item assignment `cache[key] = cols` on the JSON cache. -/
def cacheSet (cache : List (String × List String)) (k : String) (v : List String) :
    List (String × List String) :=
  match cache with
  | [] => [(k, v)]
  | (k', v') :: rest => if k' = k then (k, v) :: rest else (k', v') :: cacheSet rest k v

/-- `get_columns_from_cache` (`schema_resolver.py` lines 35-40): a hit is a
non-empty list (the all-strings check is carried by the model's types). -/
def get_columns_from_cache (table : String) (cache : List (String × List String)) :
    Option (List String) :=
  match cacheLookup cache (_normalize_table_name table) with
  | some cols => if cols ≠ [] then some cols else none
  | none => none

deriving instance DecidableEq for Except

/-- Observable outcome of one `resolve_table_columns` call: the returned
columns or the raised error message, the external strategies invoked in
order, the cache contents afterwards, and how many times `save_cache` ran. -/
structure ResolveOutcome where
  result : Except String (List String)
  calls : List String
  cacheAfter : List (String × List String)
  saves : Nat
deriving DecidableEq, Repr

/-- `resolve_table_columns` (`schema_resolver.py` lines 121-155).  The two
external strategies are modelled by their results: `mysqlRes`/`sparkRes` is
what `get_columns_via_mysql`/`get_columns_via_sparksql` would return
(`none` for failure; both helpers turn `[]` into `None`, and the Python
truthiness test is kept regardless). -/
def resolve_table_columns (table mode : String) (cache : List (String × List String))
    (mysqlRes sparkRes : Option (List String)) : ResolveOutcome :=
  let table_key := _normalize_table_name table
  let afterCache : Option ResolveOutcome :=
    if mode = "auto" || mode = "cache" then
      match get_columns_from_cache table_key cache with
      | some cols => some ⟨.ok cols, [], cache, 0⟩
      | none =>
        if mode = "cache" then
          some ⟨.error ("Schema not in cache for " ++ table_key), [], cache, 0⟩
        else none
    else none
  match afterCache with
  | some r => r
  | none =>
    let mysqlTried := mode = "auto" || mode = "mysql"
    let calls1 : List String := if mysqlTried then ["mysql"] else []
    let afterMysql : Option ResolveOutcome :=
      if mysqlTried then
        match mysqlRes with
        | some cols =>
          if cols ≠ [] then some ⟨.ok cols, calls1, cacheSet cache table_key cols, 1⟩
          else if mode = "mysql" then
            some ⟨.error ("MySQL metadata failed for " ++ table_key), calls1, cache, 0⟩
          else none
        | none =>
          if mode = "mysql" then
            some ⟨.error ("MySQL metadata failed for " ++ table_key), calls1, cache, 0⟩
          else none
      else none
    match afterMysql with
    | some r => r
    | none =>
      let sparkTried := mode = "auto" || mode = "spark-sql"
      let calls2 := calls1 ++ (if sparkTried then ["spark-sql"] else [])
      let afterSpark : Option ResolveOutcome :=
        if sparkTried then
          match sparkRes with
          | some cols =>
            if cols ≠ [] then some ⟨.ok cols, calls2, cacheSet cache table_key cols, 1⟩
            else if mode = "spark-sql" then
              some ⟨.error ("spark-sql failed to resolve schema for " ++ table_key),
                calls2, cache, 0⟩
            else none
          | none =>
            if mode = "spark-sql" then
              some ⟨.error ("spark-sql failed to resolve schema for " ++ table_key),
                calls2, cache, 0⟩
            else none
        else none
      match afterSpark with
      | some r => r
      | none => ⟨.error ("Could not resolve schema for " ++ table_key), calls2, cache, 0⟩

/-! ### Module-level name inventory (`convert.py` lines 9-19, whole source tree)

Transcribed from the source for the import-consistency claim. -/

/-- Top-level names defined in `rules.py`, in source order. -/
def rulesModuleDefs : List String :=
  ["ConversionIssue", "annotate_failure", "is_hive_unsupported", "drop_hints_and_normalize",
   "_split_args", "_find_func_ranges", "_replace_ranges", "_map_oracle_format_to_spark",
   "_transform_nvl", "_transform_decode", "_transform_to_char", "_transform_to_date",
   "_transform_trunc_date", "_transform_to_date_minus_n", "minimal_safe_rewrites",
   "_strip_alias", "_parse_merge", "transform_merge_to_insert_overwrite",
   "try_merge_to_insert_overwrite"]

/-- Top-level functions and classes defined anywhere in `src/helios`
(`rules.py` plus `binder.py`, `cli.py`, `convert.py`, `extractor.py`,
`llm.py`, `schema_resolver.py`, `splitter.py`). -/
def heliosSourceDefs : List String :=
  rulesModuleDefs ++
  ["apply_bindings", "app", "convert_cmd", "convert_path", "extract_here_doc_sql",
   "drop_diagnostics", "LLMUnavailable", "_build_prompt", "convert_oracle_to_spark_sql",
   "SchemaResolveError", "_normalize_table_name", "load_cache", "save_cache",
   "get_columns_from_cache", "get_columns_via_sparksql", "get_columns_via_mysql",
   "resolve_table_columns", "split_sql_statements"]

/-- Names `convert.py` imports from the rules module (lines 9-19), in order. -/
def convertRulesImports : List String :=
  ["is_hive_unsupported", "drop_hints_and_normalize", "minimal_safe_rewrites",
   "annotate_failure", "try_merge_to_insert_overwrite", "transform_merge_to_insert_overwrite",
   "transform_old_outer_join_simple", "transform_delete_to_insert_overwrite",
   "transform_update_to_insert_overwrite"]

/-- Modelled from Python import semantics: `from .rules import (...)` binds
every listed name at module load, so `convert.py` loads only if each
imported name is a top-level definition of `rules.py`. -/
def convertModuleLoads : Prop :=
  ∀ n ∈ convertRulesImports, n ∈ rulesModuleDefs

/-- Decidable form of `convertModuleLoads`. -/
def convertModuleLoadsB : Bool :=
  convertRulesImports.all fun n => rulesModuleDefs.contains n

/-! ### Formalization of "marker attached to a source-alias column" (claim C6) -/

/-- All start positions of occurrences of `pat` in `hay`. -/
def subIdxListGo : List Char → List Char → Nat → List Nat
  | [], _pat, _i => []
  | hay@(_ :: rest), pat, i =>
    (if pat.isPrefixOf hay then [i] else []) ++ subIdxListGo rest pat (i + 1)

/-- Characters of a SQL identifier or dotted column reference. -/
def isIdentChar (c : Char) : Bool := c.isAlphanum || c = '_' || c = '.' || c = '$'

/-- The claim's reading of the LEFT JOIN rule: some occurrence of the Oracle
outer-join marker `(+)` is attached to a source-alias column reference, i.e.
the identifier token immediately before the marker starts with
`source_alias.`. -/
def markerAttachedToSource (sa onRaw : List Char) : Bool :=
  (subIdxListGo onRaw "(+)".data 0).any fun p =>
    (sa ++ ['.']).isPrefixOf ((onRaw.take p).reverse.takeWhile isIdentChar).reverse

/-! ### Concrete statements used by the claims -/

/-- The spec's MERGE example (§8). -/
def specMergeStmt : String :=
  "MERGE INTO t a USING (q) s ON (a.k = s.k(+)) WHEN MATCHED THEN UPDATE SET a.v = s.v WHEN NOT MATCHED THEN INSERT (k, v) VALUES (s.k, s.v)"

/-- The spec's MERGE example with an extra token before `ON`, so that the
parser's ` ON ` search succeeds; the outer-join marker sits on the TARGET
alias column `a.k`. -/
def mergeTargetMarkerStmt : String :=
  "MERGE INTO t a USING (q) s x ON (a.k(+) = s.k) WHEN MATCHED THEN UPDATE SET a.v = s.v WHEN NOT MATCHED THEN INSERT (k, v) VALUES (s.k, s.v)"

/-- A MERGE whose INSERT column list has an unmatched `(`. -/
def mergeUnmatchedParenStmt : String :=
  "MERGE INTO t a USING (q) s x ON (a.k = s.k) WHEN MATCHED THEN UPDATE SET a.v = s.v WHEN NOT MATCHED THEN INSERT (k, v VALUES (s.k, s.v)"

/-- The spec's splitter example (§8). -/
def splitterExample : String := "SELECT 1; -- a;b\nSELECT 'x;y';"

/-- The components parsed from `mergeTargetMarkerStmt`. -/
def mergeTargetMarkerPre : MergePre :=
  ⟨"t".data, "a".data, "q".data, "s".data, "a.k(+) = s.k".data,
    [("v".data, "s.v".data)], ["k".data, "v".data], ["s.k".data, "s.v".data]⟩

/-- A MERGE whose INSERT column and VALUES lists have lengths 2 and 1. -/
def mergeArityMismatchStmt : String :=
  "MERGE INTO t a USING (q) s x ON (a.k = s.k) WHEN MATCHED THEN UPDATE SET a.v = s.v WHEN NOT MATCHED THEN INSERT (k, v) VALUES (s.k)"

/-- The components parsed from `mergeArityMismatchStmt`. -/
def mergeArityMismatchComp : MergeComponents :=
  ⟨"t".data, "a".data, "q".data, "s".data, "a.k = s.k".data, false,
    [("v".data, "s.v".data)], ["k".data, "v".data], ["s.k".data]⟩

theorem scanStmt_append : ∀ (s t : List Char) (q cm : Bool) (buf : List Char)
    (acc : List (List Char)) (q' : Bool),
    scanStmt s q cm = some (q', false) → t.head? ≠ some '-' →
    splitGo (s ++ t) q cm buf acc = splitGo t q' false (buf ++ s) acc := by
  intro s
  induction s with
  | nil =>
    intro t q cm buf acc q' hscan ht
    simp only [scanStmt, Option.some.injEq, Prod.mk.injEq] at hscan
    obtain ⟨hq, hcm⟩ := hscan
    subst hq; subst hcm
    simp
  | cons c rest ih =>
    intro t q cm buf acc q' hscan ht
    cases cm with
    | true =>
      simp only [scanStmt, if_true] at hscan
      have step : splitGo ((c :: rest) ++ t) q true buf acc =
          splitGo (rest ++ t) q (decide (c ≠ '\n')) (buf ++ [c]) acc := by
        simp [splitGo]
      rw [step, ih _ _ _ _ _ _ hscan ht]
      simp
    | false =>
      by_cases hcomm : (c = '-' && !q && rest.head? = some '-') = true
      · -- comment opener: rest is non-empty and starts with '-'
        have hrest : rest.head? = some '-' := by
          simp only [Bool.and_eq_true, decide_eq_true_eq] at hcomm
          exact hcomm.2
        have hcommt : (c = '-' && !q && (rest ++ t).head? = some '-') = true := by
          cases rest with
          | nil => simp at hrest
          | cons r rest' => simpa using hcomm
        have hscan' : scanStmt rest q true = some (q', false) := by
          rw [scanStmt, if_neg (by simp), if_pos hcomm] at hscan
          exact hscan
        have step : splitGo ((c :: rest) ++ t) q false buf acc =
            splitGo (rest ++ t) q true (buf ++ [c]) acc := by
          rw [List.cons_append, splitGo, if_neg (by simp), if_pos hcommt]
        rw [step, ih _ _ _ _ _ _ hscan' ht]
        simp
      · -- not a comment opener
        have hcommt : ¬((c = '-' && !q && (rest ++ t).head? = some '-') = true) := by
          cases rest with
          | nil =>
            simp only [List.nil_append, Bool.and_eq_true, decide_eq_true_eq]
            rintro ⟨⟨hc, hq⟩, hhd⟩
            exact ht hhd
          | cons r rest' => simpa using hcomm
        by_cases hquote : c = '\''
        · subst hquote
          have hscan' : scanStmt rest (!q) false = some (q', false) := by
            rw [scanStmt, if_neg (by simp), if_neg hcomm, if_pos (by simp)] at hscan
            exact hscan
          have step : splitGo (('\'' :: rest) ++ t) q false buf acc =
              splitGo (rest ++ t) (!q) false (buf ++ ['\'']) acc := by
            rw [List.cons_append, splitGo, if_neg (by simp), if_neg hcommt,
              if_pos (by simp)]
          rw [step, ih _ _ _ _ _ _ hscan' ht]
          simp
        · by_cases hsemi : (c = ';' && !q) = true
          · exfalso
            rw [scanStmt, if_neg (by simp), if_neg hcomm,
              if_neg (by simpa using hquote), if_pos hsemi] at hscan
            exact Option.noConfusion hscan
          · have hscan' : scanStmt rest q false = some (q', false) := by
              rw [scanStmt, if_neg (by simp), if_neg hcomm,
                if_neg (by simpa using hquote), if_neg hsemi] at hscan
              exact hscan
            have step : splitGo ((c :: rest) ++ t) q false buf acc =
                splitGo (rest ++ t) q false (buf ++ [c]) acc := by
              rw [List.cons_append, splitGo, if_neg (by simp), if_neg hcommt,
                if_neg (by simpa using hquote), if_neg hsemi]
            rw [step, ih _ _ _ _ _ _ hscan' ht]
            simp

theorem splitGo_semi (t buf : List Char) (acc : List (List Char)) :
    splitGo (';' :: t) false false buf acc = splitGo t false false [] (pushStmt buf acc) := by
  rw [splitGo, if_neg (by simp), if_neg (by simp), if_neg (by simp), if_pos (by simp)]

theorem pushStmt_good {s : List Char} (htrim : pyStrip s = s) (hne : s ≠ [])
    (acc : List (List Char)) : pushStmt s acc = acc ++ [s] := by
  rw [pushStmt, htrim, if_neg hne]

theorem splitGo_joinSemi : ∀ (L : List (List Char)) (acc : List (List Char)),
    (∀ s ∈ L, GoodStmt s) → splitGo (joinSemi L) false false [] acc = acc ++ L := by
  intro L
  induction L with
  | nil =>
    intro acc _h
    simp [joinSemi, splitGo, pushStmt, pyStrip, pyLstrip, pyRstrip]
  | cons s L' ih =>
    intro acc h
    obtain ⟨hscan, htrim, hne⟩ := h s (by simp)
    cases L' with
    | nil =>
      have h1 := scanStmt_append s [] false false [] acc false hscan (by simp)
      simp only [List.append_nil, List.nil_append] at h1
      rw [joinSemi, h1, splitGo, pushStmt_good htrim hne]
    | cons s2 L'' =>
      have h1 := scanStmt_append s (';' :: joinSemi (s2 :: L'')) false false [] acc false
        hscan (by simp)
      simp only [List.nil_append] at h1
      rw [show joinSemi (s :: s2 :: L'') = s ++ ';' :: joinSemi (s2 :: L'') from rfl, h1,
        splitGo_semi, pushStmt_good htrim hne,
        ih _ (fun x hx => h x (List.mem_cons_of_mem _ hx))]
      simp

/-- C2 (amended): statements returned by the splitter re-split to the same
sequence after joining with `";"`, PROVIDED each returned statement re-scans
cleanly (no top-level semicolon, balanced single quotes, and not ending
inside an unterminated `--` comment); and splitting the spec's example text
yields exactly two statements, of which the second RETAINS the line comment:
`SELECT 1` and `-- a;b\nSELECT 'x;y'`.  A semicolon inside a quoted literal
or a line comment never causes a split, as the example shows. -/
theorem claimC2_theorem (text : List Char)
    (h : ∀ s ∈ splitSqlChars text, GoodStmt s) :
    splitSqlChars (joinSemi (splitSqlChars text)) = splitSqlChars text ∧
    split_sql_statements splitterExample = ["SELECT 1", "-- a;b\nSELECT 'x;y'"] :=
  ⟨by simpa [splitSqlChars] using splitGo_joinSemi (splitSqlChars text) [] h, by decide⟩

/-- Witness for C2's theorem at the spec's example text. -/
theorem claimC2_witness :
    (∀ s ∈ splitSqlChars splitterExample.data, GoodStmt s) ∧
    splitSqlChars (joinSemi (splitSqlChars splitterExample.data)) =
      splitSqlChars splitterExample.data :=
  ⟨by decide, (claimC2_theorem splitterExample.data (by decide)).1⟩

/-- Counterexample for C2 as stated: the second split statement keeps the
`-- a;b` comment, so the example does NOT yield `SELECT 1` / `SELECT 'x;y'`;
and the unrestricted join/re-split round-trip fails when a statement ends in
a line comment (`SELECT 1 -- c\n;SELECT 2`). -/
theorem claimC2_counterexample :
    (split_sql_statements splitterExample == ["SELECT 1", "SELECT 'x;y'"]) = false ∧
    (splitSqlChars (joinSemi (splitSqlChars "SELECT 1 -- c\n;SELECT 2".data)) ==
      splitSqlChars "SELECT 1 -- c\n;SELECT 2".data) = false := by
  constructor
  · decide
  · decide

theorem hasSub_cons_false {c : Char} {rest pat : List Char}
    (h : hasSub (c :: rest) pat = false) :
    pat.isPrefixOf (c :: rest) = false ∧ hasSub rest pat = false := by
  rw [hasSub, Bool.or_eq_false_iff] at h
  exact h

theorem dropHintsGo_cons_false (c : Char) (rest : List Char)
    (hnot : "/*+".data.isPrefixOf (c :: rest) = false) :
    dropHintsGo (c :: rest) false = c :: dropHintsGo rest false := by
  rw [dropHintsGo.eq_def]
  split
  all_goals simp_all [List.isPrefixOf]

theorem dropHintsGo_cons_true (c : Char) (rest : List Char)
    (hnot : "*/".data.isPrefixOf (c :: rest) = false) :
    dropHintsGo (c :: rest) true = dropHintsGo rest true := by
  rw [dropHintsGo.eq_def]
  split
  all_goals simp_all [List.isPrefixOf]

theorem dropHintsGo_opener (rest : List Char) :
    dropHintsGo ('/' :: '*' :: '+' :: rest) false = dropHintsGo rest true := rfl

theorem dropHintsGo_closer (rest : List Char) :
    dropHintsGo ('*' :: '/' :: rest) true = dropHintsGo rest false := rfl

/-- Walking the scanner through opener-free text before a `/*` boundary. -/
theorem dropHintsGo_walk : ∀ (a : List Char) (tail2 : List Char),
    hasSub a "/*+".data = false →
    dropHintsGo (a ++ '/' :: '*' :: tail2) false =
      a ++ dropHintsGo ('/' :: '*' :: tail2) false := by
  intro a
  induction a with
  | nil => intro tail2 _h; rfl
  | cons x a' ih =>
    intro tail2 h
    obtain ⟨hpre, hsub⟩ := hasSub_cons_false h
    have hpre' : "/*+".data.isPrefixOf (x :: (a' ++ '/' :: '*' :: tail2)) = false := by
      cases a' with
      | nil => simp [List.isPrefixOf]
      | cons y a'' =>
        cases a'' with
        | nil => simp [List.isPrefixOf]
        | cons z a''' =>
          simp only [List.isPrefixOf, List.cons_append] at hpre ⊢
          simpa using hpre
    rw [List.cons_append, dropHintsGo_cons_false _ _ hpre', ih _ hsub]
    simp

/-- Consuming hint content through the first `*/`. -/
theorem dropHintsGo_consume : ∀ (b c2 : List Char),
    hasSub b "*/".data = false →
    dropHintsGo (b ++ '*' :: '/' :: c2) true = dropHintsGo c2 false := by
  intro b
  induction b with
  | nil => intro c2 _h; rfl
  | cons x b' ih =>
    intro c2 h
    obtain ⟨hpre, hsub⟩ := hasSub_cons_false h
    have hpre' : "*/".data.isPrefixOf (x :: (b' ++ '*' :: '/' :: c2)) = false := by
      cases b' with
      | nil => simp [List.isPrefixOf]
      | cons y b'' =>
        simp only [List.isPrefixOf, List.cons_append] at hpre ⊢
        simpa using hpre
    rw [List.cons_append, dropHintsGo_cons_true _ _ hpre', ih _ hsub]

/-- Consuming an unterminated hint to end of input. -/
theorem dropHintsGo_unterminated : ∀ (b : List Char),
    hasSub b "*/".data = false → dropHintsGo b true = [] := by
  intro b
  induction b with
  | nil => intro _h; rfl
  | cons x b' ih =>
    intro h
    obtain ⟨hpre, hsub⟩ := hasSub_cons_false h
    rw [dropHintsGo_cons_true _ _ hpre, ih hsub]

/-- Opener-free text passes through unchanged. -/
theorem dropHintsGo_id : ∀ (t : List Char),
    hasSub t "/*+".data = false → dropHintsGo t false = t := by
  intro t
  induction t with
  | nil => intro _h; rfl
  | cons x t' ih =>
    intro h
    obtain ⟨hpre, hsub⟩ := hasSub_cons_false h
    rw [dropHintsGo_cons_false _ _ hpre, ih hsub]

theorem openerData : "/*+".data = ['/', '*', '+'] := rfl
theorem closerData : "*/".data = ['*', '/'] := rfl

/-- C8: `drop_hints_and_normalize` leaves hint-free text unchanged, removes
each `/*+ ... */` span through the first `*/` while keeping everything
around it, and on an unterminated `/*+` drops the opener and the whole
remainder of the text. -/
theorem claimC8_theorem :
    (∀ t : List Char, hasSub t "/*+".data = false → dropHintsChars t = t) ∧
    (∀ a b c2 : List Char, hasSub a "/*+".data = false → hasSub b "*/".data = false →
      dropHintsChars (a ++ "/*+".data ++ b ++ "*/".data ++ c2) = a ++ dropHintsChars c2) ∧
    (∀ a b : List Char, hasSub a "/*+".data = false → hasSub b "*/".data = false →
      dropHintsChars (a ++ "/*+".data ++ b) = a) := by
  refine ⟨fun t ht => dropHintsGo_id t ht, fun a b c2 ha hb => ?_, fun a b ha hb => ?_⟩
  · show dropHintsGo _ false = _
    rw [openerData, closerData] at *
    rw [show a ++ ['/', '*', '+'] ++ b ++ ['*', '/'] ++ c2 =
        a ++ '/' :: '*' :: ('+' :: (b ++ '*' :: '/' :: c2)) by simp,
      dropHintsGo_walk a _ ha, dropHintsGo_opener, dropHintsGo_consume b c2 hb]
    rfl
  · show dropHintsGo _ false = _
    rw [openerData, closerData] at *
    rw [show a ++ ['/', '*', '+'] ++ b = a ++ '/' :: '*' :: ('+' :: b) by simp,
      dropHintsGo_walk a _ ha, dropHintsGo_opener, dropHintsGo_unterminated b hb]
    simp

/-- Witness for C8's theorem on a concrete hinted statement. -/
theorem claimC8_witness :
    (hasSub "SELECT ".data "/*+".data = false ∧
      hasSub " parallel(8) ".data "*/".data = false ∧
      dropHintsChars
        ("SELECT ".data ++ "/*+".data ++ " parallel(8) ".data ++ "*/".data ++ "x FROM t".data) =
        "SELECT ".data ++ dropHintsChars "x FROM t".data) ∧
    dropHintsChars "SELECT 1".data = "SELECT 1".data :=
  ⟨⟨by decide, by decide, claimC8_theorem.2.1 _ _ _ (by decide) (by decide)⟩,
    claimC8_theorem.1 _ (by decide)⟩

theorem parseMergePre_none_head {stmt : List Char} (h : parseMergeHead stmt = none) :
    parseMergePre stmt = none := by
  simp [parseMergePre, h]

theorem parseMergePre_none_source {stmt tt ta au : List Char}
    (h1 : parseMergeHead stmt = some (tt, ta, au)) (h2 : parseMergeSource au = none) :
    parseMergePre stmt = none := by
  simp [parseMergePre, h1, h2]

theorem parseMergePre_none_on {stmt tt ta au srcq sa rest : List Char}
    (h1 : parseMergeHead stmt = some (tt, ta, au))
    (h2 : parseMergeSource au = some (srcq, sa, rest))
    (h3 : parseMergeOn rest = none) :
    parseMergePre stmt = none := by
  simp [parseMergePre, h1, h2, h3]

theorem parseMergePre_none_updates {stmt tt ta au srcq sa rest onRaw rest2 : List Char}
    (h1 : parseMergeHead stmt = some (tt, ta, au))
    (h2 : parseMergeSource au = some (srcq, sa, rest))
    (h3 : parseMergeOn rest = some (onRaw, rest2))
    (h4 : parseMergeUpdates rest2 = none) :
    parseMergePre stmt = none := by
  simp [parseMergePre, h1, h2, h3, h4]

theorem transform_none_of_parse_none {stmt : List Char} (h : _parse_merge stmt = none) :
    transform_merge_to_insert_overwrite stmt = none := by
  simp [transform_merge_to_insert_overwrite, h]

/-- C5 (amended): `transform_merge_to_insert_overwrite` returns no result
(and, being a total function, raises nothing) whenever any parsing stage
fails — missing `MERGE INTO`/` USING ` keywords or target tokens, a missing
`(` or unmatched paren in the source subquery, a missing ` ON ` keyword or
unmatched paren in the ON region, missing `WHEN MATCHED THEN`/`UPDATE SET` —
and whenever the parsed INSERT column and VALUES lists have different
lengths.  (An unmatched paren in the INSERT column list or VALUES list is
NOT rejected; see the counterexample.) -/
theorem claimC5_theorem :
    (∀ stmt : List Char, parseMergeHead stmt = none →
      transform_merge_to_insert_overwrite stmt = none) ∧
    (∀ stmt tt ta au : List Char, parseMergeHead stmt = some (tt, ta, au) →
      parseMergeSource au = none → transform_merge_to_insert_overwrite stmt = none) ∧
    (∀ stmt tt ta au srcq sa rest : List Char, parseMergeHead stmt = some (tt, ta, au) →
      parseMergeSource au = some (srcq, sa, rest) → parseMergeOn rest = none →
      transform_merge_to_insert_overwrite stmt = none) ∧
    (∀ stmt tt ta au srcq sa rest onRaw rest2 : List Char,
      parseMergeHead stmt = some (tt, ta, au) →
      parseMergeSource au = some (srcq, sa, rest) → parseMergeOn rest = some (onRaw, rest2) →
      parseMergeUpdates rest2 = none → transform_merge_to_insert_overwrite stmt = none) ∧
    (∀ (stmt : List Char) (comp : MergeComponents), _parse_merge stmt = some comp →
      comp.insert_cols.length ≠ comp.insert_vals.length →
      transform_merge_to_insert_overwrite stmt = none) := by
  refine ⟨?_, ?_, ?_, ?_, ?_⟩
  · intro stmt h
    exact transform_none_of_parse_none (by simp [_parse_merge, parseMergePre_none_head h])
  · intro stmt tt ta au h1 h2
    exact transform_none_of_parse_none
      (by simp [_parse_merge, parseMergePre_none_source h1 h2])
  · intro stmt tt ta au srcq sa rest h1 h2 h3
    exact transform_none_of_parse_none
      (by simp [_parse_merge, parseMergePre_none_on h1 h2 h3])
  · intro stmt tt ta au srcq sa rest onRaw rest2 h1 h2 h3 h4
    exact transform_none_of_parse_none
      (by simp [_parse_merge, parseMergePre_none_updates h1 h2 h3 h4])
  · intro stmt comp h hlen
    rw [transform_merge_to_insert_overwrite, h]
    by_cases hemp : (comp.insert_cols = [] || comp.insert_vals = []) = true
    · simp only [hemp]
      simp
    · simp only at hemp ⊢
      simp [hemp, hlen]

/-- Witness for C5's theorem: a non-MERGE statement, a MERGE without
` USING `, and the arity-mismatch MERGE all yield no result. -/
theorem claimC5_witness :
    transform_merge_to_insert_overwrite "SELECT 1 FROM t".data = none ∧
    transform_merge_to_insert_overwrite
      "MERGE INTO t a WHEN MATCHED THEN UPDATE SET a.v = 1".data = none ∧
    transform_merge_to_insert_overwrite mergeArityMismatchStmt.data = none :=
  ⟨claimC5_theorem.1 _ (by decide), claimC5_theorem.1 _ (by decide),
    claimC5_theorem.2.2.2.2 mergeArityMismatchStmt.data mergeArityMismatchComp
      (by decide) (by decide)⟩

/-- Counterexample for C5 as stated: in
`... INSERT (k, v VALUES (s.k, s.v)` the column-list paren scan finds no
close paren, yet the transform still returns a rewrite (the parser slices
the region as `[1:-1]` instead of failing). -/
theorem claimC5_counterexample :
    mscanClose "(k, v VALUES (s.k, s.v)".data 0 false 0 = none ∧
    (transform_merge_to_insert_overwrite mergeUnmatchedParenStmt.data).isSome = true := by
  constructor
  · decide
  · decide

/-- C6 (amended): for every successfully parsed MERGE, the generated SQL
uses LEFT JOIN iff the raw ON-clause text contains the source alias followed
by a dot SOMEWHERE and contains the marker `(+)` SOMEWHERE — mere
co-occurrence; the marker need not be attached to a source-alias column. -/
theorem claimC6_theorem (stmt : List Char) (p : MergePre)
    (h : parseMergePre stmt = some p) :
    _parse_merge stmt = some (finalizeMerge p) ∧
    (finalizeMerge p).left_join =
      (hasSub p.on_raw (p.source_alias ++ ['.']) && hasSub p.on_raw "(+)".data) := by
  constructor
  · simp [_parse_merge, h]
  · rfl

/-- Witness for C6's theorem at `mergeTargetMarkerStmt`. -/
theorem claimC6_witness :
    _parse_merge mergeTargetMarkerStmt.data = some (finalizeMerge mergeTargetMarkerPre) ∧
    (finalizeMerge mergeTargetMarkerPre).left_join =
      (hasSub mergeTargetMarkerPre.on_raw (mergeTargetMarkerPre.source_alias ++ ['.']) &&
        hasSub mergeTargetMarkerPre.on_raw "(+)".data) :=
  claimC6_theorem mergeTargetMarkerStmt.data mergeTargetMarkerPre (by decide)

/-- Counterexample for C6 as stated: in `mergeTargetMarkerStmt` the ON
clause is `a.k(+) = s.k` — the marker is attached to the TARGET alias
column, not to a source-alias column — yet `left_join` is true and the
generated SQL uses LEFT JOIN, because the code only tests that `s.` and
`(+)` both occur somewhere in the ON text. -/
theorem claimC6_counterexample :
    (parseMergePre mergeTargetMarkerStmt.data).map (fun p => (p.source_alias, p.on_raw)) =
      some ("s".data, "a.k(+) = s.k".data) ∧
    markerAttachedToSource "s".data "a.k(+) = s.k".data = false ∧
    (_parse_merge mergeTargetMarkerStmt.data).map (fun c => c.left_join) = some true ∧
    (transform_merge_to_insert_overwrite mergeTargetMarkerStmt.data).map
      (fun o => hasSub o "LEFT JOIN".data) = some true := by
  refine ⟨by decide, by decide, by decide, by decide⟩

/-- C7: in `resolve_table_columns`, a cache hit (non-empty column list
under the normalized name) under mode `auto` or `cache` returns immediately
with no external strategy invoked and no cache write; mode `cache` never
invokes an external strategy and, on a miss, raises the not-in-cache error;
under `auto`, a cache miss tries the metadata-store (mysql) strategy first
and then the describe (spark-sql) strategy, and the first non-empty result
is written into the cache and persisted exactly once before being
returned. -/
theorem claimC7_theorem :
    (∀ (table mode : String) (cache : List (String × List String))
        (m s : Option (List String)) (cols : List String),
      (mode = "auto" ∨ mode = "cache") →
      get_columns_from_cache (_normalize_table_name table) cache = some cols →
      resolve_table_columns table mode cache m s = ⟨.ok cols, [], cache, 0⟩) ∧
    (∀ (table : String) (cache : List (String × List String)) (m s : Option (List String)),
      (resolve_table_columns table "cache" cache m s).calls = [] ∧
      (get_columns_from_cache (_normalize_table_name table) cache = none →
        resolve_table_columns table "cache" cache m s =
          ⟨.error ("Schema not in cache for " ++ _normalize_table_name table), [], cache, 0⟩)) ∧
    (∀ (table : String) (cache : List (String × List String)) (m s : Option (List String)),
      get_columns_from_cache (_normalize_table_name table) cache = none →
      (∀ mcols, m = some mcols → mcols ≠ [] →
        resolve_table_columns table "auto" cache m s =
          ⟨.ok mcols, ["mysql"], cacheSet cache (_normalize_table_name table) mcols, 1⟩) ∧
      ((m = none ∨ m = some []) → ∀ scols, s = some scols → scols ≠ [] →
        resolve_table_columns table "auto" cache m s =
          ⟨.ok scols, ["mysql", "spark-sql"],
            cacheSet cache (_normalize_table_name table) scols, 1⟩)) := by
  refine ⟨?_, ?_, ?_⟩
  · intro table mode cache m s cols hmode hhit
    rcases hmode with h | h <;> subst h <;> simp [resolve_table_columns, hhit]
  · intro table cache m s
    constructor
    · cases h : get_columns_from_cache (_normalize_table_name table) cache <;>
        simp [resolve_table_columns, h]
    · intro h
      simp [resolve_table_columns, h]
  · intro table cache m s hmiss
    constructor
    · intro mcols hm hne
      subst hm
      simp [resolve_table_columns, hmiss, hne]
    · intro hfail scols hs hne
      subst hs
      rcases hfail with h | h <;> subst h <;> simp [resolve_table_columns, hmiss, hne]

/-- Witness for C7's theorem on concrete cache/strategy configurations. -/
theorem claimC7_witness :
    resolve_table_columns "t" "auto" [("t", ["a", "b"])] none none =
      ⟨.ok ["a", "b"], [], [("t", ["a", "b"])], 0⟩ ∧
    (resolve_table_columns "t" "cache" [] (some ["x"]) none).calls = [] ∧
    resolve_table_columns "t" "cache" [] (some ["x"]) none =
      ⟨.error "Schema not in cache for t", [], [], 0⟩ ∧
    resolve_table_columns "t" "auto" [] (some ["x"]) (some ["y"]) =
      ⟨.ok ["x"], ["mysql"], [("t", ["x"])], 1⟩ ∧
    resolve_table_columns "t" "auto" [] none (some ["y"]) =
      ⟨.ok ["y"], ["mysql", "spark-sql"], [("t", ["y"])], 1⟩ :=
  ⟨claimC7_theorem.1 "t" "auto" _ none none ["a", "b"] (Or.inl rfl) (by decide),
    (claimC7_theorem.2.1 "t" [] (some ["x"]) none).1,
    (claimC7_theorem.2.1 "t" [] (some ["x"]) none).2 (by decide),
    (claimC7_theorem.2.2 "t" [] (some ["x"]) (some ["y"]) (by decide)).1 ["x"] rfl
      (by decide),
    (claimC7_theorem.2.2 "t" [] none (some ["y"]) (by decide)).2 (Or.inl rfl) ["y"] rfl
      (by decide)⟩

/-- C1: the spec's MERGE example is NOT rewritten by
`transform_merge_to_insert_overwrite`.  The parser's head and source stages
succeed, but the ` ON ` keyword search fails — the alias split already
consumed the space before `ON` — so parsing, and hence the whole rewrite
with its three k, v branches, returns no result.  This contradicts the
claim's (and the spec's §8) statement that the example is rewritten with
column order k, v across all three branches. -/
theorem claimC1_theorem :
    parseMergeHead specMergeStmt.data = some ("t".data, "a".data,
      "(q) s ON (a.k = s.k(+)) WHEN MATCHED THEN UPDATE SET a.v = s.v WHEN NOT MATCHED THEN INSERT (k, v) VALUES (s.k, s.v)".data) ∧
    parseMergeSource "(q) s ON (a.k = s.k(+)) WHEN MATCHED THEN UPDATE SET a.v = s.v WHEN NOT MATCHED THEN INSERT (k, v) VALUES (s.k, s.v)".data =
      some ("q".data, "s".data,
        "ON (a.k = s.k(+)) WHEN MATCHED THEN UPDATE SET a.v = s.v WHEN NOT MATCHED THEN INSERT (k, v) VALUES (s.k, s.v)".data) ∧
    parseMergeOn "ON (a.k = s.k(+)) WHEN MATCHED THEN UPDATE SET a.v = s.v WHEN NOT MATCHED THEN INSERT (k, v) VALUES (s.k, s.v)".data = none ∧
    transform_merge_to_insert_overwrite specMergeStmt.data = none := by
  refine ⟨by decide, by decide, by decide, by decide⟩

/-- C3: the date-formatting rewrite does NOT rewrite the spec's example.
`TO_CHAR(d, 'YYYY-MM-DD')` is left unchanged (the invocation scanner's depth
test precedes its decrement, so it never finds the matching close paren of a
balanced invocation), `TO_CHAR(d, 'Q')` is unchanged as claimed, the token
mapper itself maps `YYYY-MM-DD` to `yyyy-MM-dd`, but it REJECTS any format
containing `HH24`: the alphabetic-run validator sees the run `HH`, which is
not an allowed token, so `HH24` is never mapped to `HH`. -/
theorem claimC3_theorem :
    _transform_to_char "TO_CHAR(d, 'YYYY-MM-DD')".data = "TO_CHAR(d, 'YYYY-MM-DD')".data ∧
    _transform_to_char "TO_CHAR(d, 'Q')".data = "TO_CHAR(d, 'Q')".data ∧
    _map_oracle_format_to_spark "YYYY-MM-DD".data = some "yyyy-MM-dd".data ∧
    _map_oracle_format_to_spark "HH24".data = none ∧
    _map_oracle_format_to_spark "HH24:MI:SS".data = none := by
  refine ⟨by decide, by decide, by decide, by decide, by decide⟩

/-- C4: `minimal_safe_rewrites` does NOT rewrite the spec's date-arithmetic
example — `TO_DATE(x,'YYYY-MM-DD') - 7` comes back unchanged, already from
the date-arithmetic rule itself (same scanner defect as C3) — and the
pipeline is NOT idempotent: on `NVL(NVL(a,b),c))` a first pass rewrites the
outer NVL only and a second pass rewrites the inner one, changing the
output again. -/
theorem claimC4_theorem :
    minimal_safe_rewrites "TO_DATE(x,'YYYY-MM-DD') - 7".data =
      "TO_DATE(x,'YYYY-MM-DD') - 7".data ∧
    _transform_to_date_minus_n "TO_DATE(x,'YYYY-MM-DD') - 7".data =
      "TO_DATE(x,'YYYY-MM-DD') - 7".data ∧
    minimal_safe_rewrites "NVL(NVL(a,b),c))".data = "COALESCE(NVL(a,b), c))".data ∧
    (minimal_safe_rewrites (minimal_safe_rewrites "NVL(NVL(a,b),c))".data) ==
      minimal_safe_rewrites "NVL(NVL(a,b),c))".data) = false := by
  refine ⟨by decide, by decide, by decide, by decide⟩

/-- C9: `convert.py` imports `transform_old_outer_join_simple`,
`transform_delete_to_insert_overwrite` and `transform_update_to_insert_overwrite`
from the rules module, but none of these names is defined anywhere in the
source tree, so the from-import — and with it the orchestrator module —
cannot load. -/
theorem claimC9_theorem :
    (convertRulesImports.contains "transform_old_outer_join_simple" = true ∧
      heliosSourceDefs.contains "transform_old_outer_join_simple" = false) ∧
    (convertRulesImports.contains "transform_delete_to_insert_overwrite" = true ∧
      heliosSourceDefs.contains "transform_delete_to_insert_overwrite" = false) ∧
    (convertRulesImports.contains "transform_update_to_insert_overwrite" = true ∧
      heliosSourceDefs.contains "transform_update_to_insert_overwrite" = false) ∧
    convertModuleLoadsB = false := by
  refine ⟨⟨by decide, by decide⟩, ⟨by decide, by decide⟩, ⟨by decide, by decide⟩, by decide⟩

/-- C10 (amended): `try_merge_to_insert_overwrite` returns the fixed
skeleton for every statement whose STRIPPED upper-cased form starts with
`MERGE `; but the orchestrator's branch guard only LSTRIPS, so a statement
whose lstripped form starts with `MERGE ` while its stripped form is exactly
`MERGE` (e.g. `MERGE ` left behind by hint stripping) enters the branch,
gets neither a rewrite nor a skeleton, and reaches the
`MERGE_REWRITE_NEEDED` failure marker even with the LLM disabled. -/
theorem claimC10_theorem :
    (∀ stmt : List Char, "MERGE ".data.isPrefixOf (upChars (pyStrip stmt)) = true →
      try_merge_to_insert_overwrite stmt = some mergeSkeletonText.data) ∧
    convertMergeGuard "MERGE ".data = true ∧
    convertMergeBranch "MERGE ".data false none "stmt_1" =
      (annotate_failure "MERGE_REWRITE_NEEDED" "stmt_1").data := by
  refine ⟨?_, by decide, by decide⟩
  intro stmt h
  simp [try_merge_to_insert_overwrite, h]

/-- Witness for C10's theorem on a concrete MERGE statement. -/
theorem claimC10_witness :
    "MERGE ".data.isPrefixOf (upChars (pyStrip "  merge into t using (q) s".data)) = true ∧
    try_merge_to_insert_overwrite "  merge into t using (q) s".data =
      some mergeSkeletonText.data :=
  ⟨by decide, claimC10_theorem.1 _ (by decide)⟩

/-- Counterexample for C10 as stated: `MERGE ` (as produced by stripping
`MERGE /*+ append */`) passes the orchestrator's lstrip-based guard, both
the full rewrite and the skeleton return no result, and the branch emits
the MERGE_REWRITE_NEEDED failure marker — the marker branch is reachable. -/
theorem claimC10_counterexample :
    convertMergeGuard "MERGE ".data = true ∧
    transform_merge_to_insert_overwrite "MERGE ".data = none ∧
    try_merge_to_insert_overwrite "MERGE ".data = none ∧
    convertMergeBranch "MERGE ".data false none "stmt_1" =
      (annotate_failure "MERGE_REWRITE_NEEDED" "stmt_1").data ∧
    dropHintsChars "MERGE /*+ append */".data = "MERGE ".data := by
  refine ⟨by decide, by decide, by decide, by decide, by decide⟩
